import Mathlib

/-!
# Verification of the chunk-and-transcribe dataset pipeline

Shallow embedding of `src/prep_dataset.py`, `src/make_hf_dataset.py` and
`src/make_local_dataset.py` (a WAV segmenter, a whisper.cpp transcription
orchestrator writing a pipe-delimited manifest, and two downstream manifest
readers), together with theorems settling the specification claims.

Conventions of the embedding:
* Python exceptions are modelled by `Except PyError`.
* A WAV file is modelled by its header attributes plus its list of frames;
  each frame's raw bytes are abstracted as one opaque `Nat` token, since the
  segmenter copies frame bytes through unchanged and never inspects them.
* The filesystem is modelled by `FS`: a set of existing directories and a
  partial map from paths to file contents.
* The external whisper.cpp subprocess is modelled by its observable outcome
  (`BackendOutcome`): process exit code, captured stdout/stderr, and the
  optional sidecar `.txt` contents it may have written.
-/

deriving instance DecidableEq for Except

namespace TTSPipeline

/-- Python exceptions raised by the pipeline (`ValueError` in `split_wav`,
`RuntimeError` in `transcribe_chunk`), carrying their message. -/
inductive PyError where
  | valueError (msg : String)
  | runtimeError (msg : String)
deriving DecidableEq, Repr

/-- Message of a Python exception (what `str(e)` yields at the `print` in
`main`, line 150). -/
def PyError.message : PyError → String
  | .valueError m => m
  | .runtimeError m => m

/-- Embedding of Python `str.strip()` on the character list of a string:
drop leading whitespace, then drop trailing whitespace. -/
def pyStripData (l : List Char) : List Char :=
  ((l.dropWhile Char.isWhitespace).reverse.dropWhile Char.isWhitespace).reverse

/-- Embedding of Python `str.strip()` (no arguments: strips whitespace from
both ends). -/
def pyStrip (s : String) : String :=
  String.mk (pyStripData s.data)

/-- A standalone WAV container: header attributes plus frames. One list
element abstracts the raw bytes of one audio frame. -/
structure WavFile where
  nchannels : Nat
  sampwidth : Nat
  framerate : Nat
  frames : List Nat
deriving DecidableEq, Repr

/-- The input waveform as read through the `wave` module: `getnchannels`,
`getsampwidth`, `getframerate`, and the frame sequence (`getnframes` is the
length of `frames`). -/
structure Waveform where
  nchannels : Nat
  sampwidth : Nat
  framerate : Nat
  frames : List Nat
deriving DecidableEq, Repr

/-- Embedding of `math.ceil(a / b)` for naturals (exact rational division then ceiling),
valid for `b > 0`. -/
def ceilDiv (a b : Nat) : Nat := (a + b - 1) / b

/-- Frames returned by `wf.setpos(i * fpc); wf.readframes(min(fpc, nfrm - i * fpc))`
(lines 39-40): the `i`-th chunk of the frame list. -/
def chunkFrames (frames : List Nat) (fpc : Nat) (i : Nat) : List Nat :=
  (frames.drop (i * fpc)).take (min fpc (frames.length - i * fpc))

/-- The character for a decimal digit `d < 10`. -/
def digitChar (d : Nat) : Char := Char.ofNat (48 + d)

/-- Little helper for decimal notation: most-significant-first digit list of
`n`, computed with explicit fuel (`fuel ≥` the number of digits suffices). -/
def decDigitsAux (fuel : Nat) (n : Nat) : List Nat :=
  match fuel with
  | 0 => []
  | fuel + 1 => if n = 0 then [] else decDigitsAux fuel (n / 10) ++ [n % 10]

/-- Most-significant-first decimal digits of `n` (`[0]` for `0`). -/
def decimalDigits (n : Nat) : List Nat :=
  if n = 0 then [0] else decDigitsAux n n

/-- Left-pad a digit list with zeros to a minimum width of 4. -/
def pad4 (ds : List Nat) : List Nat :=
  if ds.length < 4 then List.replicate (4 - ds.length) 0 ++ ds else ds

/-- Embedding of the Python format `f"{n:04d}"` for a natural number:
decimal notation left-padded with `'0'` to a minimum width of 4. -/
def fmt04 (n : Nat) : String :=
  String.mk ((pad4 (decimalDigits n)).map digitChar)

/-- Numeric value of a most-significant-first digit list. -/
def digitsVal (l : List Nat) : Nat := l.foldl (fun acc d => 10 * acc + d) 0

/-- Segment filename for 0-based loop index `i`: `f"{i+1:04d}.wav"`
(line 41 of `prep_dataset.py`). -/
def segName (i : Nat) : String := fmt04 (i + 1) ++ ".wav"

/-- Embedding of `os.path.join(dir, name)` for a relative `name`. -/
def joinPath (d n : String) : String := d ++ "/" ++ n

/-- The pure computation inside `split_wav` (lines 26-48): header attributes
are read from the source, `frames_per_chunk = int(rate * chunk_sec)` is
validated, the chunk count is `math.ceil(nfrm / frames_per_chunk)` (zero
chunks rejected as empty input), and each chunk `i` is the corresponding
frame slice wrapped in a container carrying the source's attributes. -/
def splitWavPure (w : Waveform) (chunk_sec : Int) :
    Except PyError (List (String × WavFile)) :=
  let frames_per_chunk : Int := (w.framerate : Int) * chunk_sec
  if frames_per_chunk ≤ 0 then
    .error (.valueError "chunk_sec must be > 0")
  else
    let fpc := frames_per_chunk.toNat
    let n_chunks := ceilDiv w.frames.length fpc
    if n_chunks = 0 then
      .error (.valueError "Input WAV appears empty.")
    else
      .ok ((List.range n_chunks).map fun i =>
        (segName i,
         { nchannels := w.nchannels
           sampwidth := w.sampwidth
           framerate := w.framerate
           frames := chunkFrames w.frames fpc i }))

/-- Contents of a file on disk: either a WAV container or a text file. -/
inductive FileData where
  | wav (w : WavFile)
  | text (s : String)
deriving DecidableEq, Repr

/-- Filesystem state: which directories exist and which files exist with
what contents. -/
structure FS where
  dirs : String → Bool
  files : String → Option FileData

/-- The directory `p` together with all its ancestors (the directories
`mkdir(parents=True)` creates), as slash-separated path prefixes. -/
def ancestors (p : String) : List String :=
  let parts := p.splitOn "/"
  (List.range parts.length).map fun k => String.intercalate "/" (parts.take (k + 1))

/-- Embedding of `ensure_dir` (lines 19-20): `pathlib.Path(path).mkdir(parents=True,
exist_ok=True)` — creates the directory itself and its ancestors, tolerating
prior existence, touching no file. -/
def ensure_dir (fs : FS) (p : String) : FS :=
  { fs with dirs := fun q => if q = p ∨ q ∈ ancestors p then true else fs.dirs q }

/-- Write one file (mode `"wb"`/`"w"`: full overwrite). -/
def fsWrite (fs : FS) (p : String) (d : FileData) : FS :=
  { fs with files := fun q => if q = p then some d else fs.files q }

/-- Embedding of `split_wav` (lines 22-49) acting on the filesystem: ensure the output
directory, run the pure splitting computation, and on success write each
segment container to `out_dir/name`, returning the `(name, fullpath)` list.
On a validation error nothing is written beyond the directory creation. -/
def split_wav (fs : FS) (in_wav : Waveform) (out_dir : String) (chunk_sec : Int) :
    FS × Except PyError (List (String × String)) :=
  let fs := ensure_dir fs out_dir
  match splitWavPure in_wav chunk_sec with
  | .error e => (fs, .error e)
  | .ok segs =>
    (segs.foldl (fun acc s => fsWrite acc (joinPath out_dir s.1) (.wav s.2)) fs,
     .ok (segs.map fun s => (s.1, joinPath out_dir s.1)))

/-- Observable result of `subprocess.run` on the whisper.cpp binary:
exit code and captured output streams (already decoded). -/
structure ProcResult where
  returncode : Int
  stdout : String
  stderr : String
deriving DecidableEq, Repr

/-- Observable outcome of one whisper.cpp invocation: the process result and
the contents of the sidecar `.txt` file if the binary wrote one
(`none` = `os.path.exists(txt_path)` is false after the run). -/
structure BackendOutcome where
  proc : ProcResult
  sidecar : Option String
deriving DecidableEq, Repr

/-- Embedding of `os.path.splitext(p)[0]`: the path without its final extension. The
final extension starts at the last `'.'` of the last path component,
provided it is not a leading dot of that component. -/
def splitextBase (p : String) : String :=
  let rev := p.data.reverse
  let ext := rev.takeWhile (fun c => c ≠ '.' ∧ c ≠ '/')
  match rev.drop ext.length with
  | '.' :: rest =>
    if rest = [] ∨ rest.head? = some '/' then p
    else String.mk rest.reverse
  | _ => p

/-- Command line built by `transcribe_chunk` (lines 70-80): binary, model,
input, output prefix, `-otxt`, then the optional language hint, then the
GPU-offload flag when forcing CPU on a binary that supports it. -/
def buildArgs (chunk_path model_path whisper_bin : String) (lang : Option String)
    (force_cpu supports_ngl : Bool) : List String :=
  [whisper_bin, "-m", model_path, "-f", chunk_path,
   "-of", splitextBase chunk_path, "-otxt"]
  ++ (match lang with | some l => ["-l", l] | none => [])
  ++ (if force_cpu && supports_ngl then ["-ngl", "0"] else [])

/-- The `RuntimeError` message of `transcribe_chunk` (lines 87-93): embeds
the space-joined command line, the exit code, and the captured stdout and
stderr. -/
def transcribeFailMsg (args : List String) (res : ProcResult) : String :=
  "whisper.cpp did not produce a .txt file.\n"
  ++ "Command: " ++ (" ".intercalate args) ++ "\n"
  ++ "Exit code: " ++ toString res.returncode ++ "\n"
  ++ "STDOUT:\n" ++ res.stdout ++ "\n"
  ++ "STDERR:\n" ++ res.stderr ++ "\n"

/-- Embedding of `transcribe_chunk` (lines 58-96), given the outcome of the external
whisper.cpp invocation: if the sidecar `.txt` file exists its stripped
contents are returned (the exit code is never consulted); if it does not
exist, a `RuntimeError` embedding command line, exit code, stdout and
stderr is raised. -/
def transcribe_chunk (outcome : BackendOutcome) (chunk_path model_path whisper_bin : String)
    (lang : Option String) (force_cpu supports_ngl : Bool) : Except PyError String :=
  let args := buildArgs chunk_path model_path whisper_bin lang force_cpu supports_ngl
  match outcome.sidecar with
  | none => .error (.runtimeError (transcribeFailMsg args outcome.proc))
  | some contents => .ok (pyStrip contents)

/-- The transformation the pipeline applies to a backend transcript before
placing it in a manifest line: `transcribe_chunk` returns
`f.read().strip()` (line 96) and `main` interpolates that text unchanged
into `f"wavs/{fname}|{txt}"` (line 152). -/
def sanitizeTranscript (s : String) : String := pyStrip s

/-- One manifest line, `f"wavs/{fname}|{txt}"` (line 152). -/
def segmentLine (fname txt : String) : String := "wavs/" ++ fname ++ "|" ++ txt

/-- The per-segment loop of `main` (lines 145-157): for each `(fname, fpath)`
chunk, attempt transcription (the `backend` argument abstracts
`transcribe_chunk` applied to `fpath`); an exception is caught, printed as
`f"  ERROR on {fname}: {e}"`, and degraded to the empty transcript; a
manifest line is appended for every chunk. Returns `(meta_lines, error log)`. -/
def mainLoop (backend : String → Except PyError String) :
    List (String × String) → List String × List String
  | [] => ([], [])
  | (fname, fpath) :: rest =>
    let step : String × List String :=
      match backend fpath with
      | .ok t => (t, [])
      | .error e => ("", ["  ERROR on " ++ fname ++ ": " ++ e.message])
    let next := mainLoop backend rest
    (segmentLine fname step.1 :: next.1, step.2 ++ next.2)

/-- The pipeline portion of `main` (lines 138-161): ensure `out_dir/wavs`,
split (a `split_wav` error propagates and aborts the run), transcribe every
chunk with per-segment failure isolation, then write
`out_dir/metadata.csv` as the newline-join of the manifest lines. -/
def mainRun (fs : FS) (w : Waveform) (out_dir : String) (chunk_sec : Int)
    (backend : String → Except PyError String) : FS × Except PyError Unit :=
  let wavs_dir := joinPath out_dir "wavs"
  let fs := ensure_dir fs wavs_dir
  match split_wav fs w wavs_dir chunk_sec with
  | (fs, .error e) => (fs, .error e)
  | (fs, .ok chunks) =>
    let meta_lines := (mainLoop backend chunks).1
    (fsWrite fs (joinPath out_dir "metadata.csv")
      (.text ("\n".intercalate meta_lines)), .ok ())

/-- Embedding of `os.path.isabs` for POSIX paths. -/
def isAbs (p : String) : Bool := p.data.head? = some '/'

/-- One iteration of the `read_metadata` loop in `make_hf_dataset.py`
(lines 8-14): strip the line; skip it when empty or without `'|'`;
otherwise `rel, text = ln.split("|", 1)` and the row's audio path is
`os.path.join(data_dir, rel)` unless `rel` is absolute. -/
def readRowHF (data_dir ln0 : String) : Option (String × String) :=
  let ln := pyStrip ln0
  if ln.data = [] ∨ ¬ '|' ∈ ln.data then none
  else
    let rel := String.mk (ln.data.takeWhile (fun c => c ≠ '|'))
    let text := String.mk ((ln.data.dropWhile (fun c => c ≠ '|')).drop 1)
    some (if isAbs rel then rel else joinPath data_dir rel, text)

/-- Embedding of `read_metadata` of `make_hf_dataset.py` (lines 5-17): collect the rows,
then `raise SystemExit(...)` when none was found. -/
def read_metadata_hf (data_dir : String) (lines : List String) :
    Except String (List (String × String)) :=
  let rows := lines.filterMap (readRowHF data_dir)
  if rows = [] then
    .error "No rows found. Check your metadata.csv formatting: 'wavs/0001.wav|transcript'"
  else .ok rows

/-- One iteration of the `read_metadata` loop in `make_local_dataset.py`
(lines 17-40): strip the line; skip it when empty or without `'|'`;
otherwise split at the first `'|'`, strip both fields, and normalise the
audio path. `normRel` abstracts the filesystem-dependent
`os.path.abspath`/`os.path.relpath`/`Path.as_posix` chain (lines 27-38)
applied to the stripped relative path. -/
def readRowLocal (normRel : String → String) (ln0 : String) :
    Option (String × String) :=
  let ln := pyStrip ln0
  if ln.data = [] ∨ ¬ '|' ∈ ln.data then none
  else
    let rel := String.mk (ln.data.takeWhile (fun c => c ≠ '|'))
    let text := String.mk ((ln.data.dropWhile (fun c => c ≠ '|')).drop 1)
    some (normRel (pyStrip rel), pyStrip text)

/-- Embedding of `read_metadata` of `make_local_dataset.py` (lines 9-46): collect the
rows, then `raise SystemExit(...)` when none was found. -/
def read_metadata_local (normRel : String → String) (lines : List String) :
    Except String (List (String × String)) :=
  let rows := lines.filterMap (readRowLocal normRel)
  if rows = [] then
    .error "No rows found. Check your metadata.csv formatting: 'wavs/0001.wav|transcript'"
  else .ok rows

/-- The transcript text `main`'s loop ends up with for one chunk (lines
147-151): the backend's text on success, `""` when an exception was caught. -/
def attemptTranscript (backend : String → Except PyError String) (fpath : String) : String :=
  match backend fpath with
  | .ok t => t
  | .error _ => ""

/-- The file contents `split_wav`'s write loop leaves at path `q`: the
payload of the last segment written to `q`, if any. -/
def writeOverlay (out_dir : String) (segs : List (String × WavFile)) (q : String) :
    Option WavFile :=
  (segs.reverse.find? fun s => q = joinPath out_dir s.1).map fun s => s.2

/-! ### Concrete fixtures used by the closed (witness) theorems -/

/-- A 15-frame waveform at frame rate 2 (so `chunk_sec = 3` gives 6 frames
per chunk and segment sizes 6, 6, 3). -/
def exampleWaveform : Waveform :=
  { nchannels := 1, sampwidth := 2, framerate := 2, frames := List.range 15 }

/-- A waveform with zero frames. -/
def emptyWaveform : Waveform :=
  { nchannels := 1, sampwidth := 2, framerate := 2, frames := [] }

/-- An empty filesystem. -/
def emptyFS : FS := { dirs := fun _ => false, files := fun _ => none }

/-- A filesystem already holding stale data at one segment path. -/
def dirtyFS : FS :=
  { dirs := fun q => q = "out"
    files := fun q => if q = "out/0001.wav" then some (.text "stale") else none }

/-- Example chunk list as returned by `split_wav`. -/
def exampleChunks : List (String × String) :=
  [("0001.wav", "p1"), ("0002.wav", "p2"), ("0003.wav", "p3")]

/-- The segment containers `split_wav` produces for `exampleWaveform` with
`chunk_sec = 3`. -/
def exampleSegs : List (String × WavFile) :=
  [("0001.wav", { nchannels := 1, sampwidth := 2, framerate := 2,
                  frames := [0, 1, 2, 3, 4, 5] }),
   ("0002.wav", { nchannels := 1, sampwidth := 2, framerate := 2,
                  frames := [6, 7, 8, 9, 10, 11] }),
   ("0003.wav", { nchannels := 1, sampwidth := 2, framerate := 2,
                  frames := [12, 13, 14] })]

/-- The `(name, fullpath)` list `split_wav` returns for `exampleWaveform`
with `chunk_sec = 3` and output directory `out`. -/
def exampleChunkPaths : List (String × String) :=
  [("0001.wav", "out/0001.wav"), ("0002.wav", "out/0002.wav"),
   ("0003.wav", "out/0003.wav")]

/-- Example backend failing on the second chunk only. -/
def exampleBackend (p : String) : Except PyError String :=
  if p = "p2" then .error (.runtimeError "boom") else .ok "hi"

/-- A whisper.cpp outcome where the process failed (exit code 1) but the
sidecar file exists anyway. -/
def outcomeSidecarNonzeroExit : BackendOutcome :=
  { proc := { returncode := 1, stdout := "so", stderr := "se" }, sidecar := some " hello \n" }

/-- A whisper.cpp outcome with no sidecar file. -/
def outcomeNoSidecar : BackendOutcome :=
  { proc := { returncode := 3, stdout := "so", stderr := "se" }, sidecar := none }

/-! ## Helper lemmas: stripping -/

theorem dropWhile_self_idem {α : Type} (p : α → Bool) (l : List α) :
    (l.dropWhile p).dropWhile p = l.dropWhile p := by
  induction l with
  | nil => rfl
  | cons a t ih =>
    by_cases h : p a
    · simp [List.dropWhile_cons, h, ih]
    · simp [List.dropWhile_cons, h]

theorem head?_dropWhile_false {α : Type} (p : α → Bool) (l : List α) (c : α)
    (h : (l.dropWhile p).head? = some c) : p c = false := by
  have hne : l.dropWhile p ≠ [] := by
    intro h0
    rw [h0] at h
    simp at h
  have hh := List.head_dropWhile_not p l hne
  rw [List.head?_eq_head hne] at h
  have : (l.dropWhile p).head hne = c := by injection h
  rwa [this] at hh

theorem dropWhile_eq_self_of_head {α : Type} (p : α → Bool) (l : List α)
    (h : ∀ c, l.head? = some c → p c = false) : l.dropWhile p = l := by
  cases l with
  | nil => rfl
  | cons a t =>
    have := h a rfl
    simp [List.dropWhile_cons, this]

theorem pyStripData_head (l : List Char) (c : Char)
    (h : (pyStripData l).head? = some c) : c.isWhitespace = false := by
  unfold pyStripData at h
  rw [List.head?_reverse] at h
  obtain ⟨t, ht⟩ :=
    List.dropWhile_suffix (l := (l.dropWhile Char.isWhitespace).reverse)
      (p := Char.isWhitespace)
  have hu : (l.dropWhile Char.isWhitespace).reverse.getLast? = some c := by
    rw [← ht, List.getLast?_append, h]
    rfl
  rw [List.getLast?_reverse] at hu
  exact head?_dropWhile_false Char.isWhitespace l c hu

theorem pyStripData_idem (l : List Char) :
    pyStripData (pyStripData l) = pyStripData l := by
  have h1 : (pyStripData l).dropWhile Char.isWhitespace = pyStripData l :=
    dropWhile_eq_self_of_head _ _ (fun c hc => pyStripData_head l c hc)
  show pyStripData (pyStripData l) = pyStripData l
  conv_lhs => rw [pyStripData, h1]
  rw [pyStripData, List.reverse_reverse, dropWhile_self_idem]

theorem pyStrip_idem (s : String) : pyStrip (pyStrip s) = pyStrip s := by
  unfold pyStrip
  rw [show (String.mk (pyStripData s.data)).data = pyStripData s.data from rfl,
    pyStripData_idem]

/-! ## Helper lemmas: ceiling division -/

theorem ceilDiv_eq (a b : Nat) (hb : 0 < b) (ha : 0 < a) :
    ceilDiv a b = (a - 1) / b + 1 := by
  unfold ceilDiv
  have h : a + b - 1 = (a - 1) + b := by omega
  rw [h, Nat.add_div_right _ hb]

theorem ceilDiv_eq_zero_iff (a b : Nat) (hb : 0 < b) :
    ceilDiv a b = 0 ↔ a = 0 := by
  constructor
  · intro h
    by_contra ha
    rw [ceilDiv_eq a b hb (by omega)] at h
    exact Nat.succ_ne_zero _ h
  · intro h
    subst h
    unfold ceilDiv
    exact Nat.div_eq_of_lt (by omega)

theorem le_ceilDiv_mul (a b : Nat) (hb : 0 < b) : a ≤ ceilDiv a b * b := by
  rcases Nat.eq_zero_or_pos a with h0 | h0
  · subst h0
    exact Nat.zero_le _
  · rw [ceilDiv_eq a b hb h0, Nat.succ_mul, Nat.mul_comm]
    have h1 := Nat.div_add_mod (a - 1) b
    have h2 := Nat.mod_lt (a - 1) hb
    generalize hq : (a - 1) / b = q at h1 ⊢
    generalize hr : (a - 1) % b = r at h1 h2
    generalize hm : b * q = m at h1 ⊢
    omega

theorem ceilDiv_pred_mul_lt (a b : Nat) (hb : 0 < b) (ha : 0 < a) :
    (ceilDiv a b - 1) * b < a := by
  rw [ceilDiv_eq a b hb ha, Nat.add_sub_cancel]
  have h1 := Nat.div_mul_le_self (a - 1) b
  generalize hm : (a - 1) / b * b = m at h1 ⊢
  omega

/-! ## Helper lemmas: frame chunking -/

theorem chunkFrames_eq_take (frames : List Nat) (fpc i : Nat) :
    chunkFrames frames fpc i = (frames.drop (i * fpc)).take fpc := by
  unfold chunkFrames
  rw [show frames.length - i * fpc = (frames.drop (i * fpc)).length from
      (List.length_drop _ _).symm,
    ← List.take_take fpc, List.take_length]

theorem length_chunkFrames (frames : List Nat) (fpc i : Nat) :
    (chunkFrames frames fpc i).length = min fpc (frames.length - i * fpc) := by
  unfold chunkFrames
  rw [List.length_take, List.length_drop]
  omega

theorem join_take_chunks (fpc : Nat) :
    ∀ (n : Nat) (frames : List Nat), frames.length ≤ n * fpc →
      ((List.range n).map fun i => (frames.drop (i * fpc)).take fpc).flatten = frames := by
  intro n
  induction n with
  | zero =>
    intro frames h
    simp only [Nat.zero_mul, Nat.le_zero] at h
    simp [List.length_eq_zero.mp h]
  | succ n ih =>
    intro frames h
    rw [List.range_succ_eq_map]
    simp only [List.map_cons, List.flatten_cons, List.map_map, Function.comp,
      Nat.zero_mul, List.drop_zero]
    have hstep : ∀ i : Nat,
        ((frames.drop (Nat.succ i * fpc)).take fpc)
          = (((frames.drop fpc).drop (i * fpc)).take fpc) := by
      intro i
      rw [List.drop_drop]
      have heq : fpc + i * fpc = Nat.succ i * fpc := by
        rw [Nat.succ_mul]
        omega
      rw [heq]
    have hmap : ((List.range n).map fun i =>
        ((frames.drop (Nat.succ i * fpc)).take fpc))
          = ((List.range n).map fun i =>
        (((frames.drop fpc).drop (i * fpc)).take fpc)) :=
      List.map_congr_left (fun i _ => hstep i)
    have hlen : (frames.drop fpc).length ≤ n * fpc := by
      rw [List.length_drop]
      rw [Nat.succ_mul] at h
      generalize hm : n * fpc = m at h ⊢
      omega
    calc frames.take fpc ++
          ((List.range n).map fun i => ((frames.drop (Nat.succ i * fpc)).take fpc)).flatten
        = frames.take fpc ++ (frames.drop fpc) := by
          rw [hmap, ih (frames.drop fpc) hlen]
      _ = frames := List.take_append_drop fpc frames

/-! ## Helper lemmas: decimal digits and zero-padded names -/

theorem digitsFoldl_eq (l : List Nat) : ∀ a : Nat,
    l.foldl (fun acc d => 10 * acc + d) a = a * 10 ^ l.length + digitsVal l := by
  induction l with
  | nil =>
    intro a
    simp [digitsVal]
  | cons d t ih =>
    intro a
    have hv : digitsVal (d :: t) = d * 10 ^ t.length + digitsVal t := by
      unfold digitsVal
      rw [List.foldl_cons]
      have : 10 * 0 + d = d := by omega
      rw [this, ih d]
      rfl
    rw [List.foldl_cons, ih (10 * a + d), hv, List.length_cons]
    ring

theorem digitsVal_cons (d : Nat) (t : List Nat) :
    digitsVal (d :: t) = d * 10 ^ t.length + digitsVal t := by
  unfold digitsVal
  rw [List.foldl_cons]
  have : 10 * 0 + d = d := by omega
  rw [this, digitsFoldl_eq]
  rfl

theorem digitsVal_lt (l : List Nat) (h : ∀ d ∈ l, d < 10) :
    digitsVal l < 10 ^ l.length := by
  induction l with
  | nil => simp [digitsVal]
  | cons d t ih =>
    have hd : d < 10 := h d (by simp)
    have ht : digitsVal t < 10 ^ t.length := ih (fun x hx => h x (by simp [hx]))
    rw [digitsVal_cons, List.length_cons]
    calc d * 10 ^ t.length + digitsVal t
        < d * 10 ^ t.length + 10 ^ t.length := Nat.add_lt_add_left ht _
      _ = (d + 1) * 10 ^ t.length := by ring
      _ ≤ 10 * 10 ^ t.length := Nat.mul_le_mul_right _ (by omega)
      _ = 10 ^ (t.length + 1) := by ring

theorem digitsVal_replicate_zero (k : Nat) (l : List Nat) :
    digitsVal (List.replicate k 0 ++ l) = digitsVal l := by
  unfold digitsVal
  rw [List.foldl_append]
  have : List.foldl (fun acc d => 10 * acc + d) 0 (List.replicate k 0) = 0 := by
    induction k with
    | zero => rfl
    | succ k ih => rw [List.replicate_succ, List.foldl_cons]; simpa using ih
  rw [this]

theorem digitsVal_append_single (l : List Nat) (d : Nat) :
    digitsVal (l ++ [d]) = 10 * digitsVal l + d := by
  unfold digitsVal
  rw [List.foldl_append]
  rfl

theorem decDigitsAux_val : ∀ (fuel n : Nat), n < 10 ^ fuel →
    digitsVal (decDigitsAux fuel n) = n := by
  intro fuel
  induction fuel with
  | zero =>
    intro n h
    simp only [pow_zero, Nat.lt_one_iff] at h
    subst h
    rfl
  | succ f ih =>
    intro n h
    unfold decDigitsAux
    by_cases h0 : n = 0
    · simp [h0, digitsVal]
    · simp only [h0, if_false]
      have hdiv : n / 10 < 10 ^ f := by
        rw [Nat.div_lt_iff_lt_mul (by omega)]
        calc n < 10 ^ (f + 1) := h
          _ = 10 ^ f * 10 := by ring
      rw [digitsVal_append_single, ih (n / 10) hdiv]
      omega

theorem decDigitsAux_len : ∀ (fuel n k : Nat), n < 10 ^ k →
    (decDigitsAux fuel n).length ≤ k := by
  intro fuel
  induction fuel with
  | zero =>
    intro n k _
    simp [decDigitsAux]
  | succ f ih =>
    intro n k h
    unfold decDigitsAux
    by_cases h0 : n = 0
    · simp [h0]
    · simp only [h0, if_false, List.length_append, List.length_cons, List.length_nil]
      cases k with
      | zero =>
        exfalso
        simp only [pow_zero, Nat.lt_one_iff] at h
        exact h0 h
      | succ k =>
        have hdiv : n / 10 < 10 ^ k := by
          rw [Nat.div_lt_iff_lt_mul (by omega)]
          calc n < 10 ^ (k + 1) := h
            _ = 10 ^ k * 10 := by ring
        have := ih (n / 10) k hdiv
        omega

theorem decDigitsAux_mem : ∀ (fuel n d : Nat), d ∈ decDigitsAux fuel n → d < 10 := by
  intro fuel
  induction fuel with
  | zero =>
    intro n d h
    simp [decDigitsAux] at h
  | succ f ih =>
    intro n d h
    unfold decDigitsAux at h
    by_cases h0 : n = 0
    · simp [h0] at h
    · simp only [h0, if_false, List.mem_append, List.mem_singleton] at h
      rcases h with h | h
      · exact ih (n / 10) d h
      · subst h
        omega

theorem decimalDigits_val (n : Nat) : digitsVal (decimalDigits n) = n := by
  unfold decimalDigits
  by_cases h0 : n = 0
  · simp [h0, digitsVal]
  · simp only [h0, if_false]
    exact decDigitsAux_val n n (Nat.lt_pow_self (by omega) n)

theorem decimalDigits_len_le (n k : Nat) (hk : 0 < k) (h : n < 10 ^ k) :
    (decimalDigits n).length ≤ k := by
  unfold decimalDigits
  by_cases h0 : n = 0
  · simp [h0]
    omega
  · simp only [h0, if_false]
    exact decDigitsAux_len n n k h

theorem decimalDigits_mem (n d : Nat) (h : d ∈ decimalDigits n) : d < 10 := by
  unfold decimalDigits at h
  by_cases h0 : n = 0
  · simp [h0] at h
    omega
  · simp only [h0, if_false] at h
    exact decDigitsAux_mem n n d h

theorem pad4_len (ds : List Nat) (h : ds.length ≤ 4) : (pad4 ds).length = 4 := by
  unfold pad4
  by_cases hlt : ds.length < 4
  · simp only [hlt, if_true, List.length_append, List.length_replicate]
    omega
  · simp only [hlt, if_false]
    omega

theorem pad4_val (ds : List Nat) : digitsVal (pad4 ds) = digitsVal ds := by
  unfold pad4
  by_cases hlt : ds.length < 4
  · simp only [hlt, if_true]
    exact digitsVal_replicate_zero _ _
  · simp [hlt]

theorem pad4_mem (ds : List Nat) (d : Nat) (h : d ∈ pad4 ds) : d = 0 ∨ d ∈ ds := by
  unfold pad4 at h
  by_cases hlt : ds.length < 4
  · simp only [hlt, if_true, List.mem_append] at h
    rcases h with h | h
    · exact Or.inl (List.eq_of_mem_replicate h)
    · exact Or.inr h
  · simp only [hlt, if_false] at h
    exact Or.inr h

theorem digitChar_lt_digitChar : ∀ a < 10, ∀ b < 10, a < b → digitChar a < digitChar b := by
  decide

theorem digit_map_lex (suf : List Char) :
    ∀ (l1 l2 : List Nat), l1.length = l2.length →
      (∀ d ∈ l1, d < 10) → (∀ d ∈ l2, d < 10) → digitsVal l1 < digitsVal l2 →
      List.Lex (· < ·) (l1.map digitChar ++ suf) (l2.map digitChar ++ suf) := by
  intro l1
  induction l1 with
  | nil =>
    intro l2 hlen _ _ hv
    rw [List.length_nil] at hlen
    rw [List.length_eq_zero.mp hlen.symm] at hv
    exact absurd hv (by simp [digitsVal])
  | cons a t1 ih =>
    intro l2 hlen h1 h2 hv
    cases l2 with
    | nil => simp at hlen
    | cons b t2 =>
      have hlen' : t1.length = t2.length := by simpa using hlen
      have ha : a < 10 := h1 a (by simp)
      have hb : b < 10 := h2 b (by simp)
      rw [digitsVal_cons, digitsVal_cons, hlen'] at hv
      have hP : digitsVal t1 < 10 ^ t2.length := by
        rw [← hlen']
        exact digitsVal_lt t1 (fun d hd => h1 d (by simp [hd]))
      have hQ : digitsVal t2 < 10 ^ t2.length := by
        exact digitsVal_lt t2 (fun d hd => h2 d (by simp [hd]))
      simp only [List.map_cons, List.cons_append]
      rcases Nat.lt_trichotomy a b with hab | hab | hab
      · exact List.Lex.rel (digitChar_lt_digitChar a ha b hb hab)
      · subst hab
        have hv' : digitsVal t1 < digitsVal t2 := by
          exact Nat.lt_of_add_lt_add_left hv
        exact List.Lex.cons (ih t2 hlen'
          (fun d hd => h1 d (by simp [hd]))
          (fun d hd => h2 d (by simp [hd])) hv')
      · exfalso
        have hcontra : b * 10 ^ t2.length + digitsVal t2
            < a * 10 ^ t2.length + digitsVal t1 := by
          calc b * 10 ^ t2.length + digitsVal t2
              < b * 10 ^ t2.length + 10 ^ t2.length := Nat.add_lt_add_left hQ _
            _ = (b + 1) * 10 ^ t2.length := (Nat.succ_mul b _).symm
            _ ≤ a * 10 ^ t2.length := Nat.mul_le_mul_right _ (by omega)
            _ ≤ a * 10 ^ t2.length + digitsVal t1 := Nat.le_add_right _ _
        exact absurd hv (Nat.lt_asymm hcontra)

theorem fmt04_digits_ok (n : Nat) (hn : n ≤ 9999) :
    (pad4 (decimalDigits n)).length = 4 ∧
    (∀ d ∈ pad4 (decimalDigits n), d < 10) ∧
    digitsVal (pad4 (decimalDigits n)) = n := by
  have hlt : n < 10 ^ 4 := by norm_num; omega
  refine ⟨pad4_len _ (decimalDigits_len_le n 4 (by omega) hlt), ?_, ?_⟩
  · intro d hd
    rcases pad4_mem _ d hd with h | h
    · omega
    · exact decimalDigits_mem n d h
  · rw [pad4_val, decimalDigits_val]

theorem segName_lt (i j : Nat) (hij : i < j) (hj : j + 1 ≤ 9999) :
    segName i < segName j := by
  unfold segName fmt04
  rw [String.lt_iff_toList_lt]
  have hdata : ∀ l : List Char, (String.mk l ++ ".wav").toList = l ++ ".wav".data := by
    intro l
    rw [show (String.mk l ++ ".wav").toList = (String.mk l ++ ".wav").data from rfl,
      String.data_append]
  rw [hdata, hdata]
  obtain ⟨hl1, hm1, hv1⟩ := fmt04_digits_ok (i + 1) (by omega)
  obtain ⟨hl2, hm2, hv2⟩ := fmt04_digits_ok (j + 1) (by omega)
  exact digit_map_lex ".wav".data _ _ (by omega) hm1 hm2 (by omega)

/-! ## Helper lemmas: the transcription loop of `main` -/

theorem mainLoop_length (b : String → Except PyError String)
    (l : List (String × String)) : (mainLoop b l).1.length = l.length := by
  induction l with
  | nil => rfl
  | cons c rest ih =>
    obtain ⟨f0, p0⟩ := c
    cases hb : b p0 <;> simp [mainLoop, hb, ih]

theorem mainLoop_getElem (b : String → Except PyError String) :
    ∀ (l : List (String × String)) (k : Nat) (fname fpath : String),
      l[k]? = some (fname, fpath) →
      (mainLoop b l).1[k]? = some (segmentLine fname (attemptTranscript b fpath)) := by
  intro l
  induction l with
  | nil =>
    intro k fname fpath h
    simp at h
  | cons c rest ih =>
    intro k fname fpath h
    obtain ⟨f0, p0⟩ := c
    cases k with
    | zero =>
      rw [List.getElem?_cons_zero] at h
      simp only [Option.some.injEq, Prod.mk.injEq] at h
      obtain ⟨rfl, rfl⟩ := h
      cases hb : b p0 <;> simp [mainLoop, attemptTranscript, hb]
    | succ k =>
      rw [List.getElem?_cons_succ] at h
      cases hb : b p0 <;>
        simpa [mainLoop, hb] using ih k fname fpath h

theorem mainLoop_log (b : String → Except PyError String) :
    ∀ (l : List (String × String)) (k : Nat) (fname fpath : String) (e : PyError),
      l[k]? = some (fname, fpath) → b fpath = .error e →
      ("  ERROR on " ++ fname ++ ": " ++ e.message) ∈ (mainLoop b l).2 := by
  intro l
  induction l with
  | nil =>
    intro k fname fpath e h _
    simp at h
  | cons c rest ih =>
    intro k fname fpath e h hb
    obtain ⟨f0, p0⟩ := c
    cases k with
    | zero =>
      rw [List.getElem?_cons_zero] at h
      simp only [Option.some.injEq, Prod.mk.injEq] at h
      obtain ⟨rfl, rfl⟩ := h
      simp [mainLoop, hb]
    | succ k =>
      rw [List.getElem?_cons_succ] at h
      cases hb0 : b p0 <;>
        simp [mainLoop, hb0, ih k fname fpath e h hb]

/-! ## Helper lemmas: `split_wav` on the filesystem -/

theorem split_wav_of_error (fs : FS) (w : Waveform) (od : String) (cs : Int)
    (e : PyError) (h : splitWavPure w cs = .error e) :
    split_wav fs w od cs = (ensure_dir fs od, .error e) := by
  unfold split_wav
  rw [h]

theorem split_wav_of_ok (fs : FS) (w : Waveform) (od : String) (cs : Int)
    (segs : List (String × WavFile)) (h : splitWavPure w cs = .ok segs) :
    split_wav fs w od cs =
      (segs.foldl (fun acc s => fsWrite acc (joinPath od s.1) (.wav s.2)) (ensure_dir fs od),
       .ok (segs.map fun s => (s.1, joinPath od s.1))) := by
  unfold split_wav
  rw [h]

theorem split_wav_snd_ext (fs fs' : FS) (w : Waveform) (od : String) (cs : Int) :
    (split_wav fs w od cs).2 = (split_wav fs' w od cs).2 := by
  unfold split_wav
  cases splitWavPure w cs <;> rfl

theorem fold_write_dirs (od : String) :
    ∀ (segs : List (String × WavFile)) (fs : FS),
      (segs.foldl (fun acc s => fsWrite acc (joinPath od s.1) (.wav s.2)) fs).dirs
        = fs.dirs := by
  intro segs
  induction segs with
  | nil => intro fs; rfl
  | cons s rest ih =>
    intro fs
    rw [List.foldl_cons, ih]
    rfl

theorem fold_write_files (od : String) :
    ∀ (segs : List (String × WavFile)) (fs : FS) (q : String),
      (segs.foldl (fun acc s => fsWrite acc (joinPath od s.1) (.wav s.2)) fs).files q
        = match writeOverlay od segs q with
          | some wv => some (.wav wv)
          | none => fs.files q := by
  intro segs
  induction segs with
  | nil => intro fs q; rfl
  | cons s rest ih =>
    intro fs q
    rw [List.foldl_cons, ih]
    unfold writeOverlay
    rw [List.reverse_cons, List.find?_append]
    cases hfind : rest.reverse.find? (fun s' => q = joinPath od s'.1) with
    | some t => simp [hfind, Option.or]
    | none =>
      by_cases hq : q = joinPath od s.1
      · simp [hfind, hq, Option.or, List.find?, fsWrite]
      · simp [hfind, hq, Option.or, List.find?, fsWrite]

theorem writeOverlay_isSome (od : String) (segs : List (String × WavFile))
    (nm : String) (wv : WavFile) (h : (nm, wv) ∈ segs) :
    ∃ d, writeOverlay od segs (joinPath od nm) = some d := by
  unfold writeOverlay
  rcases hfind : segs.reverse.find? (fun s => decide (joinPath od nm = joinPath od s.1))
    with _ | t
  · have hnone := List.find?_eq_none.mp hfind (nm, wv) (List.mem_reverse.mpr h)
    simp at hnone
  · exact ⟨t.2, by rw [hfind]; rfl⟩

theorem splitWavPure_invalid (w : Waveform) (cs : Int)
    (h : (w.framerate : Int) * cs ≤ 0) :
    splitWavPure w cs = .error (.valueError "chunk_sec must be > 0") := by
  unfold splitWavPure
  simp [h]

theorem splitWavPure_empty (w : Waveform) (cs : Int)
    (hpos : 0 < (w.framerate : Int) * cs) (h0 : w.frames.length = 0) :
    splitWavPure w cs = .error (.valueError "Input WAV appears empty.") := by
  unfold splitWavPure
  rw [if_neg (not_le.mpr hpos)]
  have hfpc : 0 < ((w.framerate : Int) * cs).toNat := by omega
  have hzero : ceilDiv w.frames.length ((w.framerate : Int) * cs).toNat = 0 := by
    rw [h0]
    exact (ceilDiv_eq_zero_iff _ _ hfpc).mpr rfl
  simp [hzero]

theorem splitWavPure_ok_of (w : Waveform) (cs : Int)
    (hpos : 0 < (w.framerate : Int) * cs) (hne : w.frames.length ≠ 0) :
    splitWavPure w cs =
      .ok ((List.range
            (ceilDiv w.frames.length ((w.framerate : Int) * cs).toNat)).map fun i =>
        (segName i,
         { nchannels := w.nchannels
           sampwidth := w.sampwidth
           framerate := w.framerate
           frames := chunkFrames w.frames ((w.framerate : Int) * cs).toNat i })) := by
  unfold splitWavPure
  rw [if_neg (not_le.mpr hpos)]
  have hfpc : 0 < ((w.framerate : Int) * cs).toNat := by omega
  have hnz : ceilDiv w.frames.length ((w.framerate : Int) * cs).toNat ≠ 0 := by
    intro hz
    exact hne ((ceilDiv_eq_zero_iff _ _ hfpc).mp hz)
  simp [hnz]

theorem splitWavPure_ok_cases (w : Waveform) (cs : Int)
    (segs : List (String × WavFile)) (h : splitWavPure w cs = .ok segs) :
    0 < (w.framerate : Int) * cs ∧ 0 < w.frames.length ∧
    segs = (List.range
        (ceilDiv w.frames.length ((w.framerate : Int) * cs).toNat)).map fun i =>
      (segName i,
       { nchannels := w.nchannels
         sampwidth := w.sampwidth
         framerate := w.framerate
         frames := chunkFrames w.frames ((w.framerate : Int) * cs).toNat i }) := by
  unfold splitWavPure at h
  by_cases h1 : (w.framerate : Int) * cs ≤ 0
  · rw [if_pos h1] at h
    exact absurd h (by simp)
  · push_neg at h1
    rw [if_neg (not_le.mpr h1)] at h
    by_cases h2 : ceilDiv w.frames.length ((w.framerate : Int) * cs).toNat = 0
    · rw [if_pos h2] at h
      exact absurd h (by simp)
    · rw [if_neg h2] at h
      have hfpc : 0 < ((w.framerate : Int) * cs).toNat := by omega
      have hne : 0 < w.frames.length := by
        rcases Nat.eq_zero_or_pos w.frames.length with h0 | h0
        · exact absurd ((ceilDiv_eq_zero_iff _ _ hfpc).mpr h0) h2
        · exact h0
      exact ⟨h1, hne, (Except.ok.inj h).symm⟩

/-! ## Helper lemmas: the `read_metadata` row parsers -/

theorem readRow_skip (data_dir : String) (normRel : String → String) (ln : String)
    (h : (pyStrip ln).data = [] ∨ ¬ '|' ∈ (pyStrip ln).data) :
    readRowHF data_dir ln = none ∧ readRowLocal normRel ln = none := by
  unfold readRowHF readRowLocal
  rw [if_pos h, if_pos h]
  exact ⟨rfl, rfl⟩

theorem readRow_split (data_dir : String) (normRel : String → String) (ln : String)
    (relRaw textRaw : List Char)
    (hsplit : (pyStrip ln).data = relRaw ++ '|' :: textRaw)
    (hbar : ¬ '|' ∈ relRaw) :
    readRowHF data_dir ln = some
        ((if isAbs (String.mk relRaw) then String.mk relRaw
          else joinPath data_dir (String.mk relRaw)), String.mk textRaw) ∧
    readRowLocal normRel ln =
      some (normRel (pyStrip (String.mk relRaw)), pyStrip (String.mk textRaw)) := by
  have hne : ¬ ((pyStrip ln).data = [] ∨ ¬ '|' ∈ (pyStrip ln).data) := by
    rw [hsplit]
    simp
  have hall : ∀ a ∈ relRaw, ¬ a = '|' := fun a ha hc => hbar (hc ▸ ha)
  have htake : (pyStrip ln).data.takeWhile (fun c => c ≠ '|') = relRaw := by
    rw [hsplit, List.takeWhile_append_of_pos (by simpa using hall),
      List.takeWhile_cons_of_neg (by simp), List.append_nil]
  have hdrop : ((pyStrip ln).data.dropWhile (fun c => c ≠ '|')).drop 1 = textRaw := by
    rw [hsplit, List.dropWhile_append_of_pos (by simpa using hall),
      List.dropWhile_cons_of_neg (by simp)]
    rfl
  constructor
  · unfold readRowHF
    rw [if_neg hne, htake, hdrop]
  · unfold readRowLocal
    rw [if_neg hne, htake, hdrop]

/-! ## Claim theorems -/

/-- C1, counterexample: the claimed sanitization does not happen. The text
placed in the manifest line is only stripped: `"hello|world\nfoo"` passes
through `sanitizeTranscript` unchanged, is not the claimed
`"hello/world foo"`, and still contains both a `'|'` delimiter and a
newline. -/
theorem C1_sanitize_counterexample :
    sanitizeTranscript "hello|world\nfoo" = "hello|world\nfoo" ∧
    sanitizeTranscript "hello|world\nfoo" ≠ "hello/world foo" ∧
    '|' ∈ (sanitizeTranscript "hello|world\nfoo").data ∧
    '\n' ∈ (sanitizeTranscript "hello|world\nfoo").data := by
  decide

/-- C1, amended: the only transformation applied to a backend transcript
before it is interpolated into a manifest line is Python `str.strip()` —
leading/trailing whitespace is trimmed, but line terminators are not
collapsed and the `'|'` delimiter is not replaced. The transformation is
idempotent; the input `"hello|world\nfoo"` is left unchanged and yields the
manifest line `"wavs/0001.wav|hello|world\nfoo"`. -/
theorem C1_strip_only_amended :
    (∀ s : String, sanitizeTranscript (sanitizeTranscript s) = sanitizeTranscript s) ∧
    sanitizeTranscript "hello|world\nfoo" = "hello|world\nfoo" ∧
    segmentLine "0001.wav" (sanitizeTranscript "hello|world\nfoo")
      = "wavs/0001.wav|hello|world\nfoo" := by
  refine ⟨fun s => pyStrip_idem s, by decide, by decide⟩

/-- C5: `split_wav` fails with the invalid-chunk-duration `ValueError` if
and only if `chunk_sec ≤ 0`, for any input waveform with a positive frame
rate and any prior filesystem state. -/
theorem C5_invalid_chunk_duration_iff (fs : FS) (w : Waveform) (od : String)
    (cs : Int) (hfr : 0 < w.framerate) :
    (split_wav fs w od cs).2 = .error (.valueError "chunk_sec must be > 0")
      ↔ cs ≤ 0 := by
  constructor
  · intro h
    by_contra hcs
    push_neg at hcs
    have hpos : 0 < (w.framerate : Int) * cs :=
      mul_pos (by exact_mod_cast hfr) hcs
    by_cases h0 : w.frames.length = 0
    · rw [split_wav_of_error fs w od cs _ (splitWavPure_empty w cs hpos h0)] at h
      simp at h
    · rw [split_wav_of_ok fs w od cs _ (splitWavPure_ok_of w cs hpos h0)] at h
      simp at h
  · intro hcs
    have hnp : (w.framerate : Int) * cs ≤ 0 :=
      mul_nonpos_iff.mpr (Or.inl ⟨Int.natCast_nonneg _, hcs⟩)
    rw [split_wav_of_error fs w od cs _ (splitWavPure_invalid w cs hnp)]

/-- C5, witness: with frame rate 2, `chunk_sec = 0` raises the
invalid-chunk-duration error and `chunk_sec = 3` does not. -/
theorem C5_invalid_chunk_duration_witness :
    (split_wav emptyFS exampleWaveform "out" 0).2
      = .error (.valueError "chunk_sec must be > 0") ∧
    ¬ (split_wav emptyFS exampleWaveform "out" 3).2
      = .error (.valueError "chunk_sec must be > 0") := by
  constructor
  · exact (C5_invalid_chunk_duration_iff emptyFS exampleWaveform "out" 0
      (by decide)).mpr (by decide)
  · intro h
    exact absurd ((C5_invalid_chunk_duration_iff emptyFS exampleWaveform "out" 3
      (by decide)).mp h) (by decide)

/-- C6: a zero-frame input makes `split_wav` raise the empty-input
`ValueError` with no file written (the filesystem's files are untouched),
and the error propagates through `main`'s pipeline so that no manifest —
partial or otherwise — is written either. -/
theorem C6_empty_input_no_files (fs : FS) (w : Waveform) (od : String) (cs : Int)
    (backend : String → Except PyError String)
    (h0 : w.frames.length = 0) (hpos : 0 < (w.framerate : Int) * cs) :
    (split_wav fs w od cs).2 = .error (.valueError "Input WAV appears empty.") ∧
    (split_wav fs w od cs).1.files = fs.files ∧
    (mainRun fs w od cs backend).2
      = .error (.valueError "Input WAV appears empty.") ∧
    (mainRun fs w od cs backend).1.files = fs.files := by
  have hsplit := splitWavPure_empty w cs hpos h0
  have hsw : ∀ fs' : FS, ∀ d : String, split_wav fs' w d cs
      = (ensure_dir fs' d, .error (.valueError "Input WAV appears empty.")) :=
    fun fs' d => split_wav_of_error fs' w d cs _ hsplit
  refine ⟨?_, ?_, ?_, ?_⟩
  · rw [hsw fs od]
  · rw [hsw fs od]
    rfl
  · unfold mainRun
    simp only [hsw]
  · unfold mainRun
    simp only [hsw]
    rfl

/-- C6, witness: a concrete zero-frame waveform triggers the empty-input
error in `split_wav` and in the whole run, leaving the files of an empty
filesystem untouched. -/
theorem C6_empty_input_witness :
    (split_wav emptyFS emptyWaveform "out" 3).2
      = .error (.valueError "Input WAV appears empty.") ∧
    (split_wav emptyFS emptyWaveform "out" 3).1.files = emptyFS.files ∧
    (mainRun emptyFS emptyWaveform "out" 3 exampleBackend).2
      = .error (.valueError "Input WAV appears empty.") ∧
    (mainRun emptyFS emptyWaveform "out" 3 exampleBackend).1.files
      = emptyFS.files :=
  C6_empty_input_no_files emptyFS emptyWaveform "out" 3 exampleBackend
    (by decide) (by decide)

/-- C10: `split_wav` creates the output directory (and its ancestors)
unconditionally — the `ensure_dir` call precedes opening and validating the
input — and a call failing validation (nonpositive frame budget or
zero-frame input) returns an error having written no file. -/
theorem C10_creates_out_dir (fs : FS) (w : Waveform) (od : String) (cs : Int) :
    ((split_wav fs w od cs).1.dirs od = true ∧
     ∀ d ∈ ancestors od, (split_wav fs w od cs).1.dirs d = true) ∧
    (((w.framerate : Int) * cs ≤ 0 ∨ w.frames.length = 0) →
      (∃ e, (split_wav fs w od cs).2 = .error e) ∧
      (split_wav fs w od cs).1.files = fs.files) := by
  rcases hP : splitWavPure w cs with e | segs
  · rw [split_wav_of_error fs w od cs e hP]
    refine ⟨⟨?_, ?_⟩, ?_⟩
    · simp [ensure_dir]
    · intro d hd
      simp [ensure_dir, hd]
    · intro _
      exact ⟨⟨e, rfl⟩, rfl⟩
  · rw [split_wav_of_ok fs w od cs segs hP]
    refine ⟨⟨?_, ?_⟩, ?_⟩
    · rw [fold_write_dirs]
      simp [ensure_dir]
    · intro d hd
      rw [fold_write_dirs]
      simp [ensure_dir, hd]
    · intro hfail
      exfalso
      rcases hfail with hfail | hfail
      · rw [splitWavPure_invalid w cs hfail] at hP
        simp at hP
      · by_cases hp2 : (w.framerate : Int) * cs ≤ 0
        · rw [splitWavPure_invalid w cs hp2] at hP
          simp at hP
        · rw [splitWavPure_empty w cs (by omega) hfail] at hP
          simp at hP

/-- C10, witness: a failing call (`chunk_sec = 0`) on an empty filesystem
still creates `dataset_out/wavs` and both of its path prefixes, errors, and
writes no file. -/
theorem C10_creates_out_dir_witness :
    ((split_wav emptyFS exampleWaveform "dataset_out/wavs" 0).1.dirs
        "dataset_out/wavs" = true ∧
     ∀ d ∈ ancestors "dataset_out/wavs",
       (split_wav emptyFS exampleWaveform "dataset_out/wavs" 0).1.dirs d = true) ∧
    (∃ e, (split_wav emptyFS exampleWaveform "dataset_out/wavs" 0).2 = .error e) ∧
    (split_wav emptyFS exampleWaveform "dataset_out/wavs" 0).1.files
      = emptyFS.files := by
  have h := C10_creates_out_dir emptyFS exampleWaveform "dataset_out/wavs" 0
  exact ⟨h.1, h.2 (Or.inl (by decide))⟩

/-- C3: for every backend and every chunk sequence, `main`'s loop emits
exactly one manifest line per segment — the k-th line pairs the k-th
segment's name with the backend's transcript, or with the empty string when
the backend raised on that segment; every failure is logged with the
segment name and the exception's message, and neither the line count nor
the lines of other segments are affected by failures. -/
theorem C3_failure_isolation (backend : String → Except PyError String)
    (chunks : List (String × String)) :
    (mainLoop backend chunks).1.length = chunks.length ∧
    ∀ (k : Nat) (fname fpath : String), chunks[k]? = some (fname, fpath) →
      (mainLoop backend chunks).1[k]?
        = some (segmentLine fname (attemptTranscript backend fpath)) ∧
      ∀ e, backend fpath = .error e →
        attemptTranscript backend fpath = "" ∧
        ("  ERROR on " ++ fname ++ ": " ++ e.message) ∈ (mainLoop backend chunks).2 := by
  refine ⟨mainLoop_length backend chunks, ?_⟩
  intro k fname fpath h
  refine ⟨mainLoop_getElem backend chunks k fname fpath h, ?_⟩
  intro e he
  refine ⟨?_, mainLoop_log backend chunks k fname fpath e h he⟩
  unfold attemptTranscript
  rw [he]

/-- C3, witness: with a backend failing on the second of three chunks, the
loop still emits three lines, the second is `wavs/0002.wav|`, the third is
transcribed normally, and the failure is logged. -/
theorem C3_failure_isolation_witness :
    (mainLoop exampleBackend exampleChunks).1.length = exampleChunks.length ∧
    (mainLoop exampleBackend exampleChunks).1[1]? = some "wavs/0002.wav|" ∧
    (mainLoop exampleBackend exampleChunks).1[2]? = some "wavs/0003.wav|hi" ∧
    "  ERROR on 0002.wav: boom" ∈ (mainLoop exampleBackend exampleChunks).2 := by
  have h := C3_failure_isolation exampleBackend exampleChunks
  refine ⟨h.1, ?_, ?_, ?_⟩
  · rw [(h.2 1 "0002.wav" "p2" (by decide)).1]
    decide
  · rw [(h.2 2 "0003.wav" "p3" (by decide)).1]
    decide
  · exact ((h.2 1 "0002.wav" "p2" (by decide)).2
      (.runtimeError "boom") rfl).2

/-- C4: `transcribe_chunk` uses the sidecar file's stripped contents as the
transcript whenever the sidecar exists after the subprocess returns —
regardless of the exit code — and raises exactly when the sidecar is
absent; the raised message embeds the space-joined command line, the exit
code, and the captured stdout and stderr. -/
theorem C4_sidecar_precedence (outcome : BackendOutcome)
    (chunk_path model_path whisper_bin : String) (lang : Option String)
    (force_cpu supports_ngl : Bool) :
    (∀ c, outcome.sidecar = some c →
      transcribe_chunk outcome chunk_path model_path whisper_bin lang
          force_cpu supports_ngl = .ok (pyStrip c)) ∧
    ((∃ e, transcribe_chunk outcome chunk_path model_path whisper_bin lang
          force_cpu supports_ngl = .error e) ↔ outcome.sidecar = none) ∧
    (outcome.sidecar = none →
      ∃ msg, transcribe_chunk outcome chunk_path model_path whisper_bin lang
          force_cpu supports_ngl = .error (.runtimeError msg) ∧
        (∃ a b, msg = a ++ " ".intercalate (buildArgs chunk_path model_path
            whisper_bin lang force_cpu supports_ngl) ++ b) ∧
        (∃ a b, msg = a ++ toString outcome.proc.returncode ++ b) ∧
        (∃ a b, msg = a ++ outcome.proc.stdout ++ b) ∧
        (∃ a b, msg = a ++ outcome.proc.stderr ++ b)) := by
  cases houtcome : outcome.sidecar with
  | some c =>
    refine ⟨?_, ?_, ?_⟩
    · intro c' hc
      injection hc with hc
      subst hc
      simp [transcribe_chunk, houtcome]
    · constructor
      · rintro ⟨e, he⟩
        simp [transcribe_chunk, houtcome] at he
      · intro hnone
        simp at hnone
    · intro hnone
      simp at hnone
  | none =>
    have hresult : transcribe_chunk outcome chunk_path model_path whisper_bin lang
        force_cpu supports_ngl
      = .error (.runtimeError (transcribeFailMsg
          (buildArgs chunk_path model_path whisper_bin lang force_cpu supports_ngl)
          outcome.proc)) := by
      simp [transcribe_chunk, houtcome]
    refine ⟨?_, ?_, ?_⟩
    · intro c hc
      simp at hc
    · exact ⟨fun _ => rfl, fun _ => ⟨_, hresult⟩⟩
    · intro _
      refine ⟨_, hresult, ?_, ?_, ?_, ?_⟩
      · exact ⟨"whisper.cpp did not produce a .txt file.\n" ++ "Command: ",
          "\n" ++ "Exit code: " ++ toString outcome.proc.returncode ++ "\n"
            ++ "STDOUT:\n" ++ outcome.proc.stdout ++ "\n"
            ++ "STDERR:\n" ++ outcome.proc.stderr ++ "\n",
          by simp [transcribeFailMsg, String.append_assoc]⟩
      · exact ⟨"whisper.cpp did not produce a .txt file.\n" ++ "Command: "
            ++ " ".intercalate (buildArgs chunk_path model_path whisper_bin lang
                force_cpu supports_ngl) ++ "\n" ++ "Exit code: ",
          "\n" ++ "STDOUT:\n" ++ outcome.proc.stdout ++ "\n"
            ++ "STDERR:\n" ++ outcome.proc.stderr ++ "\n",
          by simp [transcribeFailMsg, String.append_assoc]⟩
      · exact ⟨"whisper.cpp did not produce a .txt file.\n" ++ "Command: "
            ++ " ".intercalate (buildArgs chunk_path model_path whisper_bin lang
                force_cpu supports_ngl) ++ "\n" ++ "Exit code: "
            ++ toString outcome.proc.returncode ++ "\n" ++ "STDOUT:\n",
          "\n" ++ "STDERR:\n" ++ outcome.proc.stderr ++ "\n",
          by simp [transcribeFailMsg, String.append_assoc]⟩
      · exact ⟨"whisper.cpp did not produce a .txt file.\n" ++ "Command: "
            ++ " ".intercalate (buildArgs chunk_path model_path whisper_bin lang
                force_cpu supports_ngl) ++ "\n" ++ "Exit code: "
            ++ toString outcome.proc.returncode ++ "\n" ++ "STDOUT:\n"
            ++ outcome.proc.stdout ++ "\n" ++ "STDERR:\n",
          "\n",
          by simp [transcribeFailMsg, String.append_assoc]⟩

/-- C4, witness: a nonzero exit code with an existing sidecar still yields
the stripped transcript, and a missing sidecar yields an error. -/
theorem C4_sidecar_precedence_witness :
    transcribe_chunk outcomeSidecarNonzeroExit "wavs/0001.wav" "m" "w"
        (some "en") true false = .ok "hello" ∧
    (∃ e, transcribe_chunk outcomeNoSidecar "wavs/0001.wav" "m" "w"
        (some "en") true false = .error e) := by
  constructor
  · rw [(C4_sidecar_precedence outcomeSidecarNonzeroExit "wavs/0001.wav" "m" "w"
      (some "en") true false).1 " hello \n" rfl]
    rfl
  · exact ((C4_sidecar_precedence outcomeNoSidecar "wavs/0001.wav" "m" "w"
      (some "en") true false).2.1).mpr rfl

/-- C2: for every input with a positive frame rate and at least one frame
and every `chunk_sec > 0`, `split_wav` produces exactly
`ceil(total_frames / frames_per_segment)` segments with
`frames_per_segment = frame_rate * chunk_sec`; every segment except the
last holds exactly `frames_per_segment` frames, the last holds the
(positive) remainder, the concatenation of all segment frames is the
original frame sequence (so the counts sum to the total and the frame
bytes pass through unchanged), and every segment carries the source's
channel count, sample width and frame rate. -/
theorem segs_props (frames : List Nat) (nch sw fr fpcN : Nat)
    (hfpc : 0 < fpcN) (hne : 0 < frames.length)
    (segs : List (String × WavFile))
    (hsegs : segs = (List.range (ceilDiv frames.length fpcN)).map fun i =>
      (segName i,
       { nchannels := nch, sampwidth := sw, framerate := fr,
         frames := chunkFrames frames fpcN i })) :
    segs.length = ceilDiv frames.length fpcN ∧
    (segs.map fun s => s.2.frames).flatten = frames ∧
    (segs.map fun s => s.2.frames.length).sum = frames.length ∧
    ∀ (k : Nat) (seg : String × WavFile), segs[k]? = some seg →
      seg.1 = segName k ∧
      seg.2.nchannels = nch ∧ seg.2.sampwidth = sw ∧ seg.2.framerate = fr ∧
      (k + 1 < segs.length → seg.2.frames.length = fpcN) ∧
      (k + 1 = segs.length →
        seg.2.frames.length = frames.length - k * fpcN ∧
        0 < seg.2.frames.length ∧ seg.2.frames.length ≤ fpcN) := by
  subst hsegs
  have hlen : ((List.range (ceilDiv frames.length fpcN)).map fun i =>
      ((segName i,
        { nchannels := nch, sampwidth := sw, framerate := fr,
          frames := chunkFrames frames fpcN i }) : String × WavFile)).length
      = ceilDiv frames.length fpcN := by
    rw [List.length_map, List.length_range]
  have hflat : (((List.range (ceilDiv frames.length fpcN)).map fun i =>
      ((segName i,
        { nchannels := nch, sampwidth := sw, framerate := fr,
          frames := chunkFrames frames fpcN i }) : String × WavFile)).map
        fun s => s.2.frames).flatten = frames := by
    rw [List.map_map]
    show ((List.range (ceilDiv frames.length fpcN)).map
      fun i => chunkFrames frames fpcN i).flatten = frames
    rw [List.map_congr_left fun i _ => chunkFrames_eq_take frames fpcN i]
    exact join_take_chunks fpcN _ frames (le_ceilDiv_mul _ _ hfpc)
  refine ⟨hlen, hflat, ?_, ?_⟩
  · have := congrArg List.length hflat
    rw [List.length_flatten, List.map_map] at this
    exact this
  · intro k seg hk
    have hkn : k < ceilDiv frames.length fpcN := by
      by_contra hcon
      push_neg at hcon
      rw [List.getElem?_eq_none (by rw [hlen]; exact hcon)] at hk
      exact Option.noConfusion hk
    rw [List.getElem?_map, List.getElem?_range hkn] at hk
    have hseg : seg = (segName k,
        { nchannels := nch, sampwidth := sw, framerate := fr,
          frames := chunkFrames frames fpcN k }) := by
      exact (Option.some.inj hk).symm
    subst hseg
    refine ⟨rfl, rfl, rfl, rfl, ?_, ?_⟩
    · intro hlast
      rw [hlen] at hlast
      show (chunkFrames frames fpcN k).length = fpcN
      rw [length_chunkFrames]
      have h1 : (k + 1) * fpcN ≤ (ceilDiv frames.length fpcN - 1) * fpcN :=
        Nat.mul_le_mul_right _ (by omega)
      have h2 : (ceilDiv frames.length fpcN - 1) * fpcN < frames.length :=
        ceilDiv_pred_mul_lt _ _ hfpc hne
      rw [Nat.succ_mul] at h1
      generalize k * fpcN = m at h1 ⊢
      generalize (ceilDiv frames.length fpcN - 1) * fpcN = m2 at h1 h2
      omega
    · intro hlast
      rw [hlen] at hlast
      show (chunkFrames frames fpcN k).length = frames.length - k * fpcN ∧
        0 < (chunkFrames frames fpcN k).length ∧
        (chunkFrames frames fpcN k).length ≤ fpcN
      rw [length_chunkFrames]
      have h1 : frames.length ≤ ceilDiv frames.length fpcN * fpcN :=
        le_ceilDiv_mul _ _ hfpc
      have h2 : (ceilDiv frames.length fpcN - 1) * fpcN < frames.length :=
        ceilDiv_pred_mul_lt _ _ hfpc hne
      have h3 : ceilDiv frames.length fpcN * fpcN = k * fpcN + fpcN := by
        rw [← hlast, Nat.succ_mul]
      have h4 : (ceilDiv frames.length fpcN - 1) * fpcN = k * fpcN := by
        rw [← hlast, Nat.add_sub_cancel]
      generalize k * fpcN = m at h3 h4 ⊢
      generalize ceilDiv frames.length fpcN * fpcN = m2 at h1 h3
      generalize (ceilDiv frames.length fpcN - 1) * fpcN = m3 at h2 h4
      omega

/-- C2: for every input with a positive frame rate and at least one frame
and every `chunk_sec > 0`, `split_wav` produces exactly
`ceil(total_frames / frames_per_segment)` segments with
`frames_per_segment = frame_rate * chunk_sec`; every segment except the
last holds exactly `frames_per_segment` frames, the last holds the
(positive) remainder — never a zero-length extra segment —, the
concatenation of all segment frames is the original frame sequence (so the
counts sum to the total and the frame bytes pass through unchanged), and
every segment carries the source's channel count, sample width and frame
rate. -/
theorem C2_segment_sizes (w : Waveform) (cs : Int)
    (hfr : 0 < w.framerate) (hcs : 0 < cs) (hne : 0 < w.frames.length) :
    ∃ segs, splitWavPure w cs = .ok segs ∧
      segs.length = ceilDiv w.frames.length ((w.framerate : Int) * cs).toNat ∧
      (segs.map fun s => s.2.frames).flatten = w.frames ∧
      (segs.map fun s => s.2.frames.length).sum = w.frames.length ∧
      ∀ (k : Nat) (seg : String × WavFile), segs[k]? = some seg →
        seg.2.nchannels = w.nchannels ∧ seg.2.sampwidth = w.sampwidth ∧
        seg.2.framerate = w.framerate ∧
        (k + 1 < segs.length →
          seg.2.frames.length = ((w.framerate : Int) * cs).toNat) ∧
        (k + 1 = segs.length →
          seg.2.frames.length
              = w.frames.length - k * ((w.framerate : Int) * cs).toNat ∧
          0 < seg.2.frames.length ∧
          seg.2.frames.length ≤ ((w.framerate : Int) * cs).toNat) := by
  have hpos : 0 < (w.framerate : Int) * cs := mul_pos (by exact_mod_cast hfr) hcs
  have hfpc : 0 < ((w.framerate : Int) * cs).toNat := by omega
  have hok := splitWavPure_ok_of w cs hpos (by omega)
  obtain ⟨hlen, hflat, hsum, hidx⟩ :=
    segs_props w.frames w.nchannels w.sampwidth w.framerate
      ((w.framerate : Int) * cs).toNat hfpc hne _ rfl
  refine ⟨_, hok, hlen, hflat, hsum, ?_⟩
  intro k seg hk
  obtain ⟨_, h2, h3, h4, h5, h6⟩ := hidx k seg hk
  exact ⟨h2, h3, h4, h5, h6⟩

/-- C2, witness: the 15-frame, rate-2 example with `chunk_sec = 3`
(6 frames per segment) satisfies the segmentation contract: 3 segments of
6, 6 and 3 frames. -/
theorem C2_segment_sizes_witness :
    0 < exampleWaveform.framerate ∧ (0 : Int) < 3 ∧
    0 < exampleWaveform.frames.length ∧
    ∃ segs, splitWavPure exampleWaveform 3 = .ok segs ∧
      segs.length
        = ceilDiv exampleWaveform.frames.length
            ((exampleWaveform.framerate : Int) * 3).toNat ∧
      (segs.map fun s => s.2.frames).flatten = exampleWaveform.frames ∧
      (segs.map fun s => s.2.frames.length).sum
        = exampleWaveform.frames.length ∧
      ∀ (k : Nat) (seg : String × WavFile), segs[k]? = some seg →
        seg.2.nchannels = exampleWaveform.nchannels ∧
        seg.2.sampwidth = exampleWaveform.sampwidth ∧
        seg.2.framerate = exampleWaveform.framerate ∧
        (k + 1 < segs.length →
          seg.2.frames.length = ((exampleWaveform.framerate : Int) * 3).toNat) ∧
        (k + 1 = segs.length →
          seg.2.frames.length
              = exampleWaveform.frames.length
                  - k * ((exampleWaveform.framerate : Int) * 3).toNat ∧
          0 < seg.2.frames.length ∧
          seg.2.frames.length ≤ ((exampleWaveform.framerate : Int) * 3).toNat) :=
  ⟨by decide, by decide, by decide,
   C2_segment_sizes exampleWaveform 3 (by decide) (by decide) (by decide)⟩

/-- C7: ordinal, filename and manifest line order are mutually consistent:
the k-th entry of the `split_wav` output carries the name
`f"{k+1:04d}.wav"`; filename order agrees with segment order
lexicographically for up to 9999 segments; and the k-th manifest line of
`main`'s loop pairs exactly the k-th chunk's name with its transcript. -/
theorem C7_ordinal_name_consistency (w : Waveform) (cs : Int) :
    (∀ segs, splitWavPure w cs = .ok segs →
      ∀ (k : Nat) (seg : String × WavFile), segs[k]? = some seg →
        seg.1 = fmt04 (k + 1) ++ ".wav") ∧
    (∀ i j : Nat, i < j → j + 1 ≤ 9999 → segName i < segName j) ∧
    (∀ (fs : FS) (od : String) (backend : String → Except PyError String)
        (chunks : List (String × String)) (k : Nat) (nm p : String),
      (split_wav fs w od cs).2 = .ok chunks → chunks[k]? = some (nm, p) →
        nm = segName k ∧
        (mainLoop backend chunks).1[k]?
          = some (segmentLine nm (attemptTranscript backend p))) := by
  refine ⟨?_, ?_, ?_⟩
  · intro segs hok k seg hk
    obtain ⟨hpos, hne, hsegs⟩ := splitWavPure_ok_cases w cs segs hok
    have hfpc : 0 < ((w.framerate : Int) * cs).toNat := by omega
    obtain ⟨_, _, _, hidx⟩ :=
      segs_props w.frames w.nchannels w.sampwidth w.framerate
        ((w.framerate : Int) * cs).toNat hfpc hne segs hsegs
    exact (hidx k seg hk).1
  · intro i j hij hj
    exact segName_lt i j hij hj
  · intro fs od backend chunks k nm p hok hk
    rcases hP : splitWavPure w cs with e | segs
    · rw [split_wav_of_error fs w od cs e hP] at hok
      exact absurd hok (by simp)
    · rw [split_wav_of_ok fs w od cs segs hP] at hok
      simp only at hok
      have hchunks : chunks = segs.map fun s => (s.1, joinPath od s.1) :=
        (Except.ok.inj hok).symm
      subst hchunks
      refine ⟨?_, mainLoop_getElem backend _ k nm p hk⟩
      rw [List.getElem?_map] at hk
      cases hseg : segs[k]? with
      | none =>
        rw [hseg] at hk
        exact absurd hk (by simp)
      | some seg =>
        rw [hseg] at hk
        have := Option.some.inj hk
        have hnm : seg.1 = nm := congrArg Prod.fst this
        obtain ⟨hpos, hne, hsegs⟩ := splitWavPure_ok_cases w cs segs hP
        have hfpc : 0 < ((w.framerate : Int) * cs).toNat := by omega
        obtain ⟨_, _, _, hidx⟩ :=
          segs_props w.frames w.nchannels w.sampwidth w.framerate
            ((w.framerate : Int) * cs).toNat hfpc hne segs hsegs
        rw [← hnm, (hidx k seg hseg).1]

/-- C7, witness: concrete consistency checks on the example waveform: the
third segment is named `0003.wav` (= `fmt04 3 ++ ".wav"`), names are
lexicographically increasing, and the second manifest line refers to the
second chunk. -/
theorem C7_ordinal_name_consistency_witness :
    ("0003.wav",
      ({ nchannels := 1, sampwidth := 2, framerate := 2,
         frames := [12, 13, 14] } : WavFile)).1 = fmt04 (2 + 1) ++ ".wav" ∧
    segName 0 < segName 1 ∧ segName 1 < segName 2 ∧
    ("0002.wav" : String) = segName 1 ∧
    (mainLoop exampleBackend exampleChunkPaths).1[1]?
      = some (segmentLine "0002.wav"
          (attemptTranscript exampleBackend "out/0002.wav")) := by
  have h := C7_ordinal_name_consistency exampleWaveform 3
  have hmanifest := h.2.2 emptyFS "out" exampleBackend exampleChunkPaths 1
    "0002.wav" "out/0002.wav" (by decide) (by decide)
  exact ⟨h.1 exampleSegs (by decide) 2
      ("0003.wav", { nchannels := 1, sampwidth := 2, framerate := 2,
                     frames := [12, 13, 14] }) (by decide),
    h.2.1 0 1 (by decide) (by decide),
    h.2.1 1 2 (by decide) (by decide),
    hmanifest.1, hmanifest.2⟩

/-- C8: segmenting is deterministic and idempotent: for a fixed input
waveform and `chunk_sec`, two runs of `split_wav` over any two prior
filesystem states — in particular a re-run over an existing output
directory with stale files — return the same `(name, fullpath)` list and
leave identical contents at every written path. -/
theorem C8_deterministic (fs1 fs2 : FS) (w : Waveform) (od : String) (cs : Int)
    (chunks : List (String × String))
    (h : (split_wav fs1 w od cs).2 = .ok chunks) :
    (split_wav fs2 w od cs).2 = .ok chunks ∧
    ∀ nm p, (nm, p) ∈ chunks →
      ∃ d : FileData, (split_wav fs1 w od cs).1.files p = some d ∧
        (split_wav fs2 w od cs).1.files p = some d := by
  constructor
  · rw [← split_wav_snd_ext fs1 fs2 w od cs]
    exact h
  · intro nm p hmem
    rcases hP : splitWavPure w cs with e | segs
    · rw [split_wav_of_error fs1 w od cs e hP] at h
      exact absurd h (by simp)
    · rw [split_wav_of_ok fs1 w od cs segs hP] at h
      simp only at h
      have hchunks : chunks = segs.map fun s => (s.1, joinPath od s.1) :=
        (Except.ok.inj h).symm
      subst hchunks
      rw [List.mem_map] at hmem
      obtain ⟨s, hs, heq⟩ := hmem
      have hp : joinPath od s.1 = p := congrArg Prod.snd heq
      subst hp
      obtain ⟨d, hd⟩ := writeOverlay_isSome od segs s.1 s.2
        (by rwa [Prod.mk.eta])
      refine ⟨.wav d, ?_, ?_⟩
      · rw [split_wav_of_ok fs1 w od cs segs hP]
        simp only
        rw [fold_write_files, hd]
      · rw [split_wav_of_ok fs2 w od cs segs hP]
        simp only
        rw [fold_write_files, hd]

/-- C8, witness: running over an empty filesystem and over a filesystem
with a stale file at `out/0001.wav` returns the same chunk list and leaves
the same contents at that path. -/
theorem C8_deterministic_witness :
    (split_wav dirtyFS exampleWaveform "out" 3).2 = .ok exampleChunkPaths ∧
    ∃ d : FileData,
      (split_wav emptyFS exampleWaveform "out" 3).1.files "out/0001.wav"
        = some d ∧
      (split_wav dirtyFS exampleWaveform "out" 3).1.files "out/0001.wav"
        = some d := by
  have h := C8_deterministic emptyFS dirtyFS exampleWaveform "out" 3
    exampleChunkPaths (by decide)
  exact ⟨h.1, h.2 "0001.wav" "out/0001.wav" (by decide)⟩

/-- C9: both downstream `read_metadata` readers skip every blank line and
every line without a `'|'`, split each remaining line at its first `'|'`
only — later `'|'` characters stay inside the text field — and terminate
with an error exactly when no line yields a row. -/
theorem C9_read_metadata_readers (data_dir : String) (normRel : String → String)
    (lines : List String) :
    ((∃ m, read_metadata_hf data_dir lines = .error m)
      ↔ ∀ ln ∈ lines, readRowHF data_dir ln = none) ∧
    ((∃ m, read_metadata_local normRel lines = .error m)
      ↔ ∀ ln ∈ lines, readRowLocal normRel ln = none) ∧
    (∀ ln : String, (pyStrip ln).data = [] ∨ ¬ '|' ∈ (pyStrip ln).data →
      readRowHF data_dir ln = none ∧ readRowLocal normRel ln = none) ∧
    (∀ (ln : String) (relRaw textRaw : List Char),
      (pyStrip ln).data = relRaw ++ '|' :: textRaw → ¬ '|' ∈ relRaw →
      readRowHF data_dir ln = some
        ((if isAbs (String.mk relRaw) then String.mk relRaw
          else joinPath data_dir (String.mk relRaw)), String.mk textRaw) ∧
      readRowLocal normRel ln =
        some (normRel (pyStrip (String.mk relRaw)),
          pyStrip (String.mk textRaw))) := by
  refine ⟨?_, ?_, ?_, ?_⟩
  · unfold read_metadata_hf
    by_cases hrows : lines.filterMap (readRowHF data_dir) = []
    · rw [if_pos hrows]
      exact iff_of_true ⟨_, rfl⟩ (List.filterMap_eq_nil_iff.mp hrows)
    · rw [if_neg hrows]
      exact iff_of_false (by rintro ⟨m, hm⟩; exact Except.noConfusion hm)
        (fun hall => hrows (List.filterMap_eq_nil_iff.mpr hall))
  · unfold read_metadata_local
    by_cases hrows : lines.filterMap (readRowLocal normRel) = []
    · rw [if_pos hrows]
      exact iff_of_true ⟨_, rfl⟩ (List.filterMap_eq_nil_iff.mp hrows)
    · rw [if_neg hrows]
      exact iff_of_false (by rintro ⟨m, hm⟩; exact Except.noConfusion hm)
        (fun hall => hrows (List.filterMap_eq_nil_iff.mpr hall))
  · intro ln hln
    exact readRow_skip data_dir normRel ln hln
  · intro ln relRaw textRaw hsplit hbar
    exact readRow_split data_dir normRel ln relRaw textRaw hsplit hbar

/-- C9, witness: on a file of only blank/undelimited lines both readers
error; a line with two delimiters is split at the first one, the second
staying inside the text. -/
theorem C9_read_metadata_readers_witness :
    (∃ m, read_metadata_hf "dd" ["", "   ", "nodelim"] = .error m) ∧
    (∃ m, read_metadata_local (fun s => s) ["", "   ", "nodelim"] = .error m) ∧
    readRowHF "dd" " wavs/0001.wav|hello|world "
      = some ((if isAbs (String.mk "wavs/0001.wav".data)
          then String.mk "wavs/0001.wav".data
          else joinPath "dd" (String.mk "wavs/0001.wav".data)),
        String.mk "hello|world".data) ∧
    readRowLocal (fun s => s) " wavs/0001.wav|hello|world "
      = some ((fun s => s) (pyStrip (String.mk "wavs/0001.wav".data)),
        pyStrip (String.mk "hello|world".data)) := by
  have h1 := (C9_read_metadata_readers "dd" (fun s => s)
    ["", "   ", "nodelim"]).1.mpr (by decide)
  have h2 := (C9_read_metadata_readers "dd" (fun s => s)
    ["", "   ", "nodelim"]).2.1.mpr (by decide)
  have h3 := (C9_read_metadata_readers "dd" (fun s => s) []).2.2.2
    " wavs/0001.wav|hello|world " "wavs/0001.wav".data "hello|world".data
    (by decide) (by decide)
  exact ⟨h1, h2, h3.1, h3.2⟩

end TTSPipeline
